import Mathlib

/-
Verification of the document-retrieval scoring rubric
(`verifiers/rubrics/document_retrieval_rubric.py`).

The Python code manipulates dynamically typed values (strings, numbers,
booleans, None, lists, dicts).  We embed these as the inductive `PVal`.
Python exceptions that can escape the rubric's methods are embedded as the
`PyErr` type, and every method that can raise is translated to a function
into `Except PyErr _`.  `json.loads` is external to the repository, so the
scanner is parameterised over a deserialisation function
`jl : String → Except Unit PVal` (an `.error` result stands for
`json.JSONDecodeError`, the only deserialisation failure, which the source
catches together with `KeyError`).  Exact rational arithmetic stands in for
Python float arithmetic: every division the code performs is of small
integer counts, so the embedding is exact on the values the spec names.
-/

namespace DocRetrieval

/-- A dynamically typed Python value, as far as the rubric inspects them. -/
inductive PVal where
  | str (s : String)
  | num (n : Int)
  | bool (b : Bool)
  | none
  | list (l : List PVal)
  | dict (d : List (String × PVal))

instance {e a : Type} [DecidableEq e] [DecidableEq a] : DecidableEq (Except e a) :=
  fun x y =>
    match x, y with
    | .ok v, .ok w =>
        if h : v = w then .isTrue (by rw [h])
        else .isFalse (fun hc => by cases hc; exact h rfl)
    | .error v, .error w =>
        if h : v = w then .isTrue (by rw [h])
        else .isFalse (fun hc => by cases hc; exact h rfl)
    | .ok _, .error _ => .isFalse (fun hc => by cases hc)
    | .error _, .ok _ => .isFalse (fun hc => by cases hc)

/-- Python exceptions that the rubric's code paths can raise. -/
inductive PyErr where
  | assertionError
  | typeError
  | keyError
  | attributeError
deriving DecidableEq, Repr

/-- First-match lookup in a Python dict (keys are unique in Python, so the
first match is the only one). -/
def dLookup (d : List (String × PVal)) (k : String) : Option PVal :=
  match d with
  | [] => Option.none
  | (k1, v) :: rest => if k1 = k then some v else dLookup rest k

/-- Python `k in d` for a dict. -/
def dContains (d : List (String × PVal)) (k : String) : Bool :=
  (dLookup d k).isSome

/-- Python `d.get(k, dflt)`. -/
def dGetD (d : List (String × PVal)) (k : String) (dflt : PVal) : PVal :=
  (dLookup d k).getD dflt

/-- Python truthiness of a value (`bool(v)`). -/
def truthy : PVal → Bool
  | .str s => s ≠ ""
  | .num n => n ≠ 0
  | .bool b => b
  | .none => false
  | .list l => !l.isEmpty
  | .dict d => !d.isEmpty

/-- Python `v == t` where `t` is a `str`: only equal strings compare equal
(no builtin non-string value equals a string). -/
def pvalEqStr : PVal → String → Bool
  | .str s, t => s == t
  | _, _ => false

/-- Python `needle in hay` for strings: substring containment (the empty
string is contained in every string). -/
def strContains (hay needle : String) : Bool :=
  (List.range (hay.data.length + 1)).any
    (fun i => needle.data.isPrefixOf (hay.data.drop i))

/-- Python `isinstance(v, list)`. -/
def isSeq : PVal → Bool
  | .list _ => true
  | _ => false

/-- The default `document_id_parser`, `lambda x: x.split(":")[0]`: the
first field of splitting on `":"`, i.e. the characters before the first
colon (the whole string when there is none). -/
def defaultIdParser (x : String) : String :=
  String.mk (x.data.takeWhile (fun c => !(c == ':')))

/-- The construction-time configuration of `DocumentRetrievalRubric`:
`self.tool.__name__`, `self.arg_name`, `self.target_key`,
`self.document_id_parser`.  The tool itself is only ever used through its
name, so only the name is kept. -/
structure Rubric where
  toolName : String
  argName : String
  targetKey : String
  parser : String → String

/-- Applying the identifier parser (declared `Callable[[str], str]`) to a
dynamic value: on a non-string the default parser's attribute access
`x.split` raises `AttributeError`. -/
def parseApply (p : String → String) : PVal → Except PyErr String
  | .str s => .ok (p s)
  | _ => .error .attributeError

/-- The semantics of `json.loads` on the argument payload: either a parsed
value or a `json.JSONDecodeError`. -/
def JLoads : Type := String → Except Unit PVal

/-- The body of the inner `for tool_call in tool_calls` loop of
`_extract_retrieved_docs`, for one tool-call entry.  Returns the list of
parsed identifiers this entry appends (empty when the entry is skipped), or
the exception it raises.  Only `json.JSONDecodeError` (and `KeyError`,
which cannot actually occur in the `try` block) is caught; attribute and
type errors propagate. -/
def processCall (R : Rubric) (jl : JLoads) (tc : PVal) : Except PyErr (List String) :=
  match tc with
  | .dict d =>
      match dGetD d "function" (.dict []) with
      | .dict fd =>
          if pvalEqStr (dGetD fd "name" (.str "")) R.toolName then
            match dGetD fd "arguments" (.str "\x7b\x7d") with
            | .str s =>
                match jl s with
                | .error _ => .ok []
                | .ok (.dict ad) =>
                    match dLookup ad R.argName with
                    | some v => (parseApply R.parser v).map (fun x => [x])
                    | Option.none => .ok []
                | .ok (.list l) =>
                    if l.any (fun e => pvalEqStr e R.argName) then .error .typeError
                    else .ok []
                | .ok (.str t) =>
                    if strContains t R.argName then .error .typeError
                    else .ok []
                | .ok _ => .error .typeError
            | _ => .error .typeError
          else .ok []
      | _ => .error .attributeError
  | _ => .error .attributeError

/-- The inner loop of `_extract_retrieved_docs` over a `tool_calls` list:
identifiers are appended in scan order; the first uncaught exception
aborts. -/
def processCalls (R : Rubric) (jl : JLoads) : List PVal → Except PyErr (List String)
  | [] => .ok []
  | tc :: rest =>
      match processCall R jl tc with
      | .error e => .error e
      | .ok l =>
          match processCalls R jl rest with
          | .error e => .error e
          | .ok ls => .ok (l ++ ls)

/-- The body of the outer `for msg in completion` loop for one message:
`msg["role"]` raises `TypeError` on a non-dict message and `KeyError` on a
dict without a `"role"` key; a message whose role is not `"assistant"`,
which lacks `"tool_calls"`, or whose `tool_calls` value is not a list,
contributes nothing. -/
def processMsg (R : Rubric) (jl : JLoads) (msg : PVal) : Except PyErr (List String) :=
  match msg with
  | .dict d =>
      match dLookup d "role" with
      | Option.none => .error .keyError
      | some roleV =>
          if pvalEqStr roleV "assistant" && dContains d "tool_calls" then
            match dLookup d "tool_calls" with
            | some (.list tcs) => processCalls R jl tcs
            | _ => .ok []
          else .ok []
  | _ => .error .typeError

/-- The outer loop of `_extract_retrieved_docs` over the message list. -/
def processMsgs (R : Rubric) (jl : JLoads) : List PVal → Except PyErr (List String)
  | [] => .ok []
  | msg :: rest =>
      match processMsg R jl msg with
      | .error e => .error e
      | .ok l =>
          match processMsgs R jl rest with
          | .error e => .error e
          | .ok ls => .ok (l ++ ls)

/-- `_extract_retrieved_docs(completion)`: `assert isinstance(completion, list)`
fails on any non-list completion; otherwise scan every message. -/
def extractRetrievedDocs (R : Rubric) (jl : JLoads) (completion : PVal) :
    Except PyErr (List String) :=
  match completion with
  | .list msgs => processMsgs R jl msgs
  | _ => .error .assertionError

/-- The state bag handed to `_get_target_docs`: a Python dict. -/
def State : Type := List (String × PVal)

/-- Priority 1 of `_get_target_docs`: the value of `target_docs` after
`if "input" in state and isinstance(state["input"], dict): if target_key in
state["input"]: target_docs = state["input"].get(target_key, [])`, starting
from the initial `target_docs = []`. -/
def locate1 (R : Rubric) (s : State) : PVal :=
  match dLookup s "input" with
  | some (.dict d) => if dContains d R.targetKey then dGetD d R.targetKey (.list []) else .list []
  | _ => .list []

/-- Priority 2 of `_get_target_docs`: `if not target_docs and target_key in
state: target_docs = state.get(target_key, [])`. -/
def locate2 (R : Rubric) (s : State) : PVal :=
  if !truthy (locate1 R s) && dContains s R.targetKey then dGetD s R.targetKey (.list [])
  else locate1 R s

/-- Priority 3 of `_get_target_docs`: `if not target_docs and "info" in
state and isinstance(state["info"], dict): target_docs =
state["info"].get(target_key, [])`.  The result is the raw `target_docs`
value just before the list coercion. -/
def locateRaw (R : Rubric) (s : State) : PVal :=
  if !truthy (locate2 R s) then
    match dLookup s "info" with
    | some (.dict d) => dGetD d R.targetKey (.list [])
    | _ => locate2 R s
  else locate2 R s

/-- The `Convert to list if needed` step of `_get_target_docs`: a list is
kept as is; a truthy non-list is wrapped in a singleton with a logged
warning (the boolean records whether the warning fired); a falsy non-list
becomes the empty list silently. -/
def coerceList : PVal → List PVal × Bool
  | .list l => (l, false)
  | v => if truthy v then ([v], true) else ([], false)

/-- The list comprehension `[self.document_id_parser(doc) for doc in
target_docs]`: parse each element in order, raising at the first non-string
element. -/
def parseAll (p : String → String) : List PVal → Except PyErr (List String)
  | [] => .ok []
  | v :: rest =>
      match parseApply p v with
      | .error e => .error e
      | .ok x =>
          match parseAll p rest with
          | .error e => .error e
          | .ok xs => .ok (x :: xs)

/-- `_get_target_docs(state)`: locate, coerce, then apply
`document_id_parser` to every element.  The boolean reports whether the
coercion warning was logged. -/
def getTargetDocs (R : Rubric) (s : State) : Except PyErr (List String × Bool) :=
  match parseAll R.parser (coerceList (locateRaw R s)).1 with
  | .error e => .error e
  | .ok res => .ok (res, (coerceList (locateRaw R s)).2)

/-- `retrieved_count(completion)`: `float(len(set(retrieved)))`. -/
def retrievedCount (R : Rubric) (jl : JLoads) (c : PVal) : Except PyErr ℚ :=
  (extractRetrievedDocs R jl c).map (fun l => (l.dedup.length : ℚ))

/-- `target_count(state)`: `float(len(set(target)))`. -/
def targetCount (R : Rubric) (s : State) : Except PyErr ℚ :=
  (getTargetDocs R s).map (fun p => (p.1.dedup.length : ℚ))

/-- `recall(completion, state)`: extract, resolve, and if the target set is
empty return `1.0`, else `|retrieved ∩ target| / |target|`. -/
def recallMetric (R : Rubric) (jl : JLoads) (c : PVal) (s : State) : Except PyErr ℚ :=
  match extractRetrievedDocs R jl c with
  | .error e => .error e
  | .ok retrieved =>
      match getTargetDocs R s with
      | .error e => .error e
      | .ok tgt =>
          let tset := tgt.1.toFinset
          if tset = ∅ then .ok 1
          else .ok (((retrieved.toFinset ∩ tset).card : ℚ) / (tset.card : ℚ))

/-- `precision(completion, state)`: extract, resolve, and if the retrieved
set is empty return `0.0`, else `|retrieved ∩ target| / |retrieved|`. -/
def precision (R : Rubric) (jl : JLoads) (c : PVal) (s : State) : Except PyErr ℚ :=
  match extractRetrievedDocs R jl c with
  | .error e => .error e
  | .ok retrieved =>
      match getTargetDocs R s with
      | .error e => .error e
      | .ok tgt =>
          let rset := retrieved.toFinset
          if rset = ∅ then .ok 0
          else .ok (((rset ∩ tgt.1.toFinset).card : ℚ) / (rset.card : ℚ))

/-- Stated from the spec wording for target resolution: the target key
held under the `"input"` location, kept only when its value is non-empty. -/
def specFromInput (R : Rubric) (s : State) : Option PVal :=
  match dLookup s "input" with
  | some (.dict d) => (dLookup d R.targetKey).filter truthy
  | _ => Option.none

/-- Stated from the spec wording: the target key at the top level of the
state bag, kept only when its value is non-empty. -/
def specFromTop (R : Rubric) (s : State) : Option PVal :=
  (dLookup s R.targetKey).filter truthy

/-- Stated from the spec wording: the target key under the `"info"`
location, kept only when its value is non-empty. -/
def specFromInfo (R : Rubric) (s : State) : Option PVal :=
  match dLookup s "info" with
  | some (.dict d) => (dLookup d R.targetKey).filter truthy
  | _ => Option.none

/-- The target-resolution algorithm as the spec words it: check the three
recognised locations in precedence order (under `"input"`, top level,
under `"info"`) and return the value of the first location where the
target key is present and its value is non-empty; `Option.none` when no
location yields a non-empty value. -/
def specResolve (R : Rubric) (s : State) : Option PVal :=
  ((specFromInput R s).orElse (fun _ => specFromTop R s)).orElse
    (fun _ => specFromInfo R s)

/-- A tool-call entry as emitted by a chat API: a `"function"` dict with a
`"name"` and a serialised `"arguments"` payload. -/
def mkCall (name args : String) : PVal :=
  .dict [("function", .dict [("name", .str name), ("arguments", .str args)])]

/-- An assistant message carrying a list of tool calls. -/
def mkAsstMsg (tcs : List PVal) : PVal :=
  .dict [("role", .str "assistant"), ("tool_calls", .list tcs)]

/-- A concrete rubric with the constructor's default configuration and a
tool named `search`. -/
def demoRubric : Rubric :=
  ⟨"search", "section_id", "target_documents", defaultIdParser⟩

/-- A table-driven `json.loads` model covering exactly the payload strings
used in the concrete scenarios below, agreeing with Python's `json` module
on each entry; every other string is treated as undecodable. -/
def jlDemo : JLoads := fun s =>
  if s = "\x7b\x7d" then .ok (.dict [])
  else if s = "\x7b\"section_id\": \"doc7:para2\"\x7d" then
    .ok (.dict [("section_id", .str "doc7:para2")])
  else if s = "\x7b\"section_id\": \"a:1\"\x7d" then
    .ok (.dict [("section_id", .str "a:1")])
  else if s = "\x7b\"section_id\": \"b:1\"\x7d" then
    .ok (.dict [("section_id", .str "b:1")])
  else if s = "5" then .ok (.num 5)
  else .error ()

/-! ### Structural lemmas about the transcript scan -/

/-- Sequential composition of two scan results: the first exception wins,
otherwise the identifier lists are appended. -/
def exCat (x y : Except PyErr (List String)) : Except PyErr (List String) :=
  match x with
  | .error e => .error e
  | .ok a =>
      match y with
      | .error e => .error e
      | .ok b => .ok (a ++ b)

theorem processCalls_append (R : Rubric) (jl : JLoads) (xs ys : List PVal) :
    processCalls R jl (xs ++ ys) =
      exCat (processCalls R jl xs) (processCalls R jl ys) := by
  induction xs with
  | nil =>
      simp only [List.nil_append]
      cases h : processCalls R jl ys <;> simp [processCalls, exCat, h]
  | cons tc rest ih =>
      simp only [List.cons_append]
      cases h : processCall R jl tc with
      | error e => simp [processCalls, exCat, h]
      | ok l =>
          cases h2 : processCalls R jl rest with
          | error e => simp [processCalls, exCat, h, ih, h2]
          | ok a =>
              cases h3 : processCalls R jl ys with
              | error e => simp [processCalls, exCat, h, ih, h2, h3]
              | ok b => simp [processCalls, exCat, h, ih, h2, h3]

theorem processMsgs_append (R : Rubric) (jl : JLoads) (xs ys : List PVal) :
    processMsgs R jl (xs ++ ys) =
      exCat (processMsgs R jl xs) (processMsgs R jl ys) := by
  induction xs with
  | nil =>
      simp only [List.nil_append]
      cases h : processMsgs R jl ys <;> simp [processMsgs, exCat, h]
  | cons m rest ih =>
      simp only [List.cons_append]
      cases h : processMsg R jl m with
      | error e => simp [processMsgs, exCat, h]
      | ok l =>
          cases h2 : processMsgs R jl rest with
          | error e => simp [processMsgs, exCat, h, ih, h2]
          | ok a =>
              cases h3 : processMsgs R jl ys with
              | error e => simp [processMsgs, exCat, h, ih, h2, h3]
              | ok b => simp [processMsgs, exCat, h, ih, h2, h3]

/-- A tool-call entry that is skipped contributes nothing: the scan over
the surrounding tool-call list is unchanged when it is removed. -/
theorem processCalls_drop (R : Rubric) (jl : JLoads) (pre post : List PVal)
    (tc : PVal) (h : processCall R jl tc = .ok []) :
    processCalls R jl (pre ++ tc :: post) = processCalls R jl (pre ++ post) := by
  rw [processCalls_append, processCalls_append]
  cases hpre : processCalls R jl pre with
  | error e => rfl
  | ok a =>
      simp only [exCat, processCalls, h]
      cases hpost : processCalls R jl post <;> simp

/-- A message that contributes nothing leaves the transcript scan
unchanged when it is removed. -/
theorem processMsgs_drop (R : Rubric) (jl : JLoads) (pre post : List PVal)
    (m : PVal) (h : processMsg R jl m = .ok []) :
    processMsgs R jl (pre ++ m :: post) = processMsgs R jl (pre ++ post) := by
  rw [processMsgs_append, processMsgs_append]
  cases hpre : processMsgs R jl pre with
  | error e => rfl
  | ok a =>
      simp only [exCat, processMsgs, h]
      cases hpost : processMsgs R jl post <;> simp

/-- Replacing one message by one with the same per-message result leaves
the transcript scan unchanged. -/
theorem processMsgs_congr (R : Rubric) (jl : JLoads) (pre post : List PVal)
    (a b : PVal) (h : processMsg R jl a = processMsg R jl b) :
    processMsgs R jl (pre ++ a :: post) = processMsgs R jl (pre ++ b :: post) := by
  rw [processMsgs_append, processMsgs_append]
  cases hpre : processMsgs R jl pre with
  | error e => rfl
  | ok x => simp only [exCat, processMsgs, h]

/-- An assistant message carrying a tool-call list is scanned exactly by
the inner loop. -/
theorem processMsg_mkAsstMsg (R : Rubric) (jl : JLoads) (tcs : List PVal) :
    processMsg R jl (mkAsstMsg tcs) = processCalls R jl tcs := by
  simp [processMsg, mkAsstMsg, dLookup, dContains, pvalEqStr]

/-! ### Results equal up to deduplication -/

/-- Two scan results that raise the same exception or return identifier
lists with the same underlying set. -/
def SameDocs : Except PyErr (List String) → Except PyErr (List String) → Prop
  | .ok l1, .ok l2 => l1.toFinset = l2.toFinset
  | .error e1, .error e2 => e1 = e2
  | _, _ => False

theorem SameDocs.refl (x : Except PyErr (List String)) : SameDocs x x := by
  cases x <;> simp [SameDocs]

theorem SameDocs.concat {x1 x2 y1 y2 : Except PyErr (List String)}
    (h1 : SameDocs x1 y1) (h2 : SameDocs x2 y2) :
    SameDocs (exCat x1 x2) (exCat y1 y2) := by
  cases x1 <;> cases y1 <;> simp [SameDocs] at h1 <;>
    cases x2 <;> cases y2 <;> simp [SameDocs] at h2 <;>
      simp [SameDocs, exCat, h1, h2]

theorem processCalls_replicate_ok (R : Rubric) (jl : JLoads) (tc : PVal)
    (l : List String) (h : processCall R jl tc = .ok l) :
    ∀ n, processCalls R jl (List.replicate n tc) = .ok ((List.replicate n l).flatten)
  | 0 => by simp [processCalls]
  | (n + 1) => by
      rw [List.replicate_succ, List.replicate_succ]
      simp [processCalls, h, processCalls_replicate_ok R jl tc l h n]

theorem join_replicate_toFinset (l : List String) :
    ∀ n, 1 ≤ n → ((List.replicate n l).flatten).toFinset = l.toFinset
  | 0, h => absurd h (by simp)
  | 1, _ => by simp
  | (n + 2), _ => by
      rw [List.replicate_succ]
      simp [join_replicate_toFinset l (n + 1) (by omega)]

/-- Scanning the same tool-call entry `n ≥ 1` times yields the same
exception, or an identifier list with the same underlying set, as scanning
it once. -/
theorem processCalls_replicate (R : Rubric) (jl : JLoads) (tc : PVal)
    (n : ℕ) (hn : 1 ≤ n) :
    SameDocs (processCalls R jl (List.replicate n tc)) (processCalls R jl [tc]) := by
  cases h : processCall R jl tc with
  | error e =>
      obtain ⟨m, rfl⟩ : ∃ m, n = m + 1 := ⟨n - 1, by omega⟩
      rw [List.replicate_succ]
      simp [processCalls, h, SameDocs]
  | ok l =>
      rw [processCalls_replicate_ok R jl tc l h n]
      have h1 := processCalls_replicate_ok R jl tc l h 1
      simp at h1
      rw [h1]
      simp [SameDocs, join_replicate_toFinset l n hn]

/-- Replacing one message by one whose per-message result is the same up
to deduplication keeps the whole transcript scan the same up to
deduplication. -/
theorem processMsgs_samedocs (R : Rubric) (jl : JLoads) (pre post : List PVal)
    (a b : PVal) (h : SameDocs (processMsg R jl a) (processMsg R jl b)) :
    SameDocs (processMsgs R jl (pre ++ a :: post))
      (processMsgs R jl (pre ++ b :: post)) := by
  rw [processMsgs_append, processMsgs_append]
  have hmid : SameDocs (processMsgs R jl (a :: post)) (processMsgs R jl (b :: post)) :=
    SameDocs.concat h (SameDocs.refl (processMsgs R jl post))
  exact SameDocs.concat (SameDocs.refl (processMsgs R jl pre)) hmid

/-- Duplicating one tool-call entry inside one message's tool-call list
keeps the transcript scan the same up to deduplication. -/
theorem extract_replicate_samedocs (R : Rubric) (jl : JLoads)
    (m1 m2 pre post : List PVal) (tc : PVal) (n : ℕ) (hn : 1 ≤ n) :
    SameDocs
      (extractRetrievedDocs R jl
        (.list (m1 ++ mkAsstMsg (pre ++ (List.replicate n tc ++ post)) :: m2)))
      (extractRetrievedDocs R jl
        (.list (m1 ++ mkAsstMsg (pre ++ (tc :: post)) :: m2))) := by
  show SameDocs (processMsgs R jl _) (processMsgs R jl _)
  apply processMsgs_samedocs
  rw [processMsg_mkAsstMsg, processMsg_mkAsstMsg]
  have e1 : tc :: post = [tc] ++ post := rfl
  rw [e1, processCalls_append R jl pre, processCalls_append R jl pre,
      processCalls_append R jl (List.replicate n tc) post,
      processCalls_append R jl [tc] post]
  exact SameDocs.concat (SameDocs.refl _)
    (SameDocs.concat (processCalls_replicate R jl tc n hn) (SameDocs.refl _))

/-- Scan results equal up to deduplication have equal deduplicated
counts. -/
theorem samedocs_count {x y : Except PyErr (List String)} (h : SameDocs x y) :
    x.map (fun l : List String => ((l.dedup.length : ℚ))) =
      y.map (fun l : List String => ((l.dedup.length : ℚ))) := by
  cases x with
  | error e => cases y with
      | error e2 => simp [SameDocs] at h; simp [h]
      | ok l2 => simp [SameDocs] at h
  | ok l => cases y with
      | error e2 => simp [SameDocs] at h
      | ok l2 =>
          simp only [SameDocs] at h
          simp only [Except.map, Except.ok.injEq]
          rw [← List.card_toFinset, ← List.card_toFinset, h]

/-- Extraction results equal up to deduplication give equal recall. -/
theorem samedocs_recall (R : Rubric) (jl : JLoads) (c1 c2 : PVal) (s : State)
    (h : SameDocs (extractRetrievedDocs R jl c1) (extractRetrievedDocs R jl c2)) :
    recallMetric R jl c1 s = recallMetric R jl c2 s := by
  unfold recallMetric
  cases h1 : extractRetrievedDocs R jl c1 with
  | error e => cases h2 : extractRetrievedDocs R jl c2 with
      | error e2 => rw [h1, h2] at h; simp [SameDocs] at h; simp [h]
      | ok l2 => rw [h1, h2] at h; simp [SameDocs] at h
  | ok l => cases h2 : extractRetrievedDocs R jl c2 with
      | error e2 => rw [h1, h2] at h; simp [SameDocs] at h
      | ok l2 =>
          rw [h1, h2] at h; simp only [SameDocs] at h
          cases hg : getTargetDocs R s with
          | error e => simp
          | ok tgt => simp [h]

/-- Extraction results equal up to deduplication give equal precision. -/
theorem samedocs_precision (R : Rubric) (jl : JLoads) (c1 c2 : PVal) (s : State)
    (h : SameDocs (extractRetrievedDocs R jl c1) (extractRetrievedDocs R jl c2)) :
    precision R jl c1 s = precision R jl c2 s := by
  unfold precision
  cases h1 : extractRetrievedDocs R jl c1 with
  | error e => cases h2 : extractRetrievedDocs R jl c2 with
      | error e2 => rw [h1, h2] at h; simp [SameDocs] at h; simp [h]
      | ok l2 => rw [h1, h2] at h; simp [SameDocs] at h
  | ok l => cases h2 : extractRetrievedDocs R jl c2 with
      | error e2 => rw [h1, h2] at h; simp [SameDocs] at h
      | ok l2 =>
          rw [h1, h2] at h; simp only [SameDocs] at h
          cases hg : getTargetDocs R s with
          | error e => simp
          | ok tgt => simp [h]

/-! ### Target resolution refines the spec's first-non-empty search -/

theorem locate1_spec (R : Rubric) (s : State) :
    match specFromInput R s with
    | some v => locate1 R s = v ∧ truthy v = true
    | Option.none => truthy (locate1 R s) = false := by
  unfold specFromInput locate1
  cases h : dLookup s "input" with
  | none => simp [truthy]
  | some v =>
      cases v with
      | str s1 => simp [truthy]
      | num n => simp [truthy]
      | bool b => simp [truthy]
      | none => simp [truthy]
      | list l => simp [truthy]
      | dict d =>
          cases h2 : dLookup d R.targetKey with
          | none => simp [dContains, h2, Option.filter, truthy]
          | some w =>
              cases ht : truthy w with
              | true => simp [dContains, h2, dGetD, Option.filter, ht]
              | false => simp [dContains, h2, dGetD, Option.filter, ht]

theorem locate2_spec (R : Rubric) (s : State) :
    match (specFromInput R s).orElse (fun _ => specFromTop R s) with
    | some v => locate2 R s = v ∧ truthy v = true
    | Option.none => truthy (locate2 R s) = false := by
  have h1 := locate1_spec R s
  unfold locate2
  cases hI : specFromInput R s with
  | some v =>
      rw [hI] at h1; simp only at h1
      simp [Option.orElse, h1.1, h1.2]
  | none =>
      rw [hI] at h1; simp only at h1
      unfold specFromTop
      cases h2 : dLookup s R.targetKey with
      | none => simp [Option.orElse, Option.filter, dContains, h2, h1]
      | some w =>
          cases ht : truthy w <;>
            simp [Option.orElse, Option.filter, dContains, h2, dGetD, h1, ht]

theorem locateRaw_spec (R : Rubric) (s : State) :
    match specResolve R s with
    | some v => locateRaw R s = v ∧ truthy v = true
    | Option.none => truthy (locateRaw R s) = false := by
  have h2 := locate2_spec R s
  unfold specResolve locateRaw
  cases hJ : (specFromInput R s).orElse (fun _ => specFromTop R s) with
  | some v =>
      rw [hJ] at h2; simp only at h2
      simp [Option.orElse, h2.1, h2.2]
  | none =>
      rw [hJ] at h2; simp only at h2
      unfold specFromInfo
      cases hi : dLookup s "info" with
      | none => simp [Option.orElse, hi, h2]
      | some v =>
          cases v <;> simp [Option.orElse, hi, h2]
          rename_i d
          cases h3 : dLookup d R.targetKey with
          | none => simp [Option.filter, h3, dGetD, h2, truthy]
          | some w =>
              cases ht : truthy w <;> simp [Option.filter, h3, dGetD, h2, ht]

/-- A falsy value is coerced to the empty list with no warning. -/
theorem coerceList_falsy (v : PVal) (h : truthy v = false) :
    coerceList v = ([], false) := by
  cases v <;> simp [truthy] at h <;> simp [coerceList, truthy, h]

/-- The parser applied elementwise to a list of strings never raises. -/
theorem parseAll_strings (p : String → String) (l : List String) :
    parseAll p (l.map PVal.str) = .ok (l.map p) := by
  induction l with
  | nil => simp [parseAll]
  | cons x rest ih => simp [parseAll, parseApply, ih]

/-- A tool call whose arguments payload fails to deserialize is skipped
(the `except` clause catches `json.JSONDecodeError`), whatever the tool
name. -/
theorem processCall_parse_error (R : Rubric) (jl : JLoads) (nm s : String)
    (h : jl s = .error ()) : processCall R jl (mkCall nm s) = .ok [] := by
  cases hn : nm == R.toolName <;>
    simp [processCall, mkCall, dGetD, dLookup, pvalEqStr, hn, h]

/-- A matched tool call whose deserialized mapping lacks the argument name
is skipped. -/
theorem processCall_missing_arg (R : Rubric) (jl : JLoads) (s : String)
    (ad : List (String × PVal)) (h : jl s = .ok (.dict ad))
    (h2 : dLookup ad R.argName = Option.none) :
    processCall R jl (mkCall R.toolName s) = .ok [] := by
  simp [processCall, mkCall, dGetD, dLookup, pvalEqStr, h, h2]

/-- A matched tool call whose deserialized mapping binds the argument name
to a string contributes exactly the parsed identifier. -/
theorem processCall_hit (R : Rubric) (jl : JLoads) (s : String)
    (ad : List (String × PVal)) (x : String) (h : jl s = .ok (.dict ad))
    (h2 : dLookup ad R.argName = some (.str x)) :
    processCall R jl (mkCall R.toolName s) = .ok [R.parser x] := by
  simp [processCall, mkCall, dGetD, dLookup, pvalEqStr, h, h2, parseApply,
    Except.map]

/-! ### Claim theorems -/

/-- C1 as stated is false: a payload that deserializes to a non-mapping
(here the integer `5`) raises an uncaught `TypeError` at the membership
test `self.arg_name in args`, aborting the whole scan, so the well-formed
matching entry that follows is never counted. -/
theorem c1_nonmapping_aborts :
    jlDemo "5" = .ok (.num 5) ∧
    extractRetrievedDocs demoRubric jlDemo
      (.list [mkAsstMsg [mkCall "search" "5",
        mkCall "search" "\x7b\"section_id\": \"a:1\"\x7d"]]) =
      .error .typeError := by
  exact ⟨rfl, rfl⟩

/-- C1 amended: an unparsable arguments payload, or a payload that
deserializes to a mapping lacking the expected argument, causes only that
single tool-call entry to be skipped silently — the scan continues and
every other entry is still counted exactly as if the malformed entry were
absent.  (A payload deserializing to a non-mapping, or a tool-call entry
without dict structure, can instead raise an uncaught type or attribute
error that aborts the scan.) -/
theorem c1_parse_failures_skipped (R : Rubric) (jl : JLoads)
    (m1 m2 pre post : List PVal) (nm s : String) :
    (jl s = .error () →
      extractRetrievedDocs R jl
        (.list (m1 ++ mkAsstMsg (pre ++ mkCall nm s :: post) :: m2)) =
      extractRetrievedDocs R jl (.list (m1 ++ mkAsstMsg (pre ++ post) :: m2))) ∧
    (∀ ad, jl s = .ok (.dict ad) → dLookup ad R.argName = Option.none →
      extractRetrievedDocs R jl
        (.list (m1 ++ mkAsstMsg (pre ++ mkCall R.toolName s :: post) :: m2)) =
      extractRetrievedDocs R jl (.list (m1 ++ mkAsstMsg (pre ++ post) :: m2))) := by
  constructor
  · intro h
    show processMsgs R jl _ = processMsgs R jl _
    apply processMsgs_congr
    rw [processMsg_mkAsstMsg, processMsg_mkAsstMsg]
    exact processCalls_drop R jl pre post _ (processCall_parse_error R jl nm s h)
  · intro ad h h2
    show processMsgs R jl _ = processMsgs R jl _
    apply processMsgs_congr
    rw [processMsg_mkAsstMsg, processMsg_mkAsstMsg]
    exact processCalls_drop R jl pre post _ (processCall_missing_arg R jl s ad h h2)

/-- Witness for the amended C1: an undecodable payload next to a valid
entry is skipped and the valid entry still counted. -/
theorem c1_parse_failures_skipped_witness :
    jlDemo "not json" = .error () ∧
    extractRetrievedDocs demoRubric jlDemo
      (.list [mkAsstMsg [mkCall "search" "not json",
        mkCall "search" "\x7b\"section_id\": \"a:1\"\x7d"]]) =
      extractRetrievedDocs demoRubric jlDemo
        (.list [mkAsstMsg [mkCall "search" "\x7b\"section_id\": \"a:1\"\x7d"]]) ∧
    extractRetrievedDocs demoRubric jlDemo
      (.list [mkAsstMsg [mkCall "search" "\x7b\"section_id\": \"a:1\"\x7d"]]) =
      .ok ["a"] :=
  ⟨rfl,
   (c1_parse_failures_skipped demoRubric jlDemo [] []
      [] [mkCall "search" "\x7b\"section_id\": \"a:1\"\x7d"] "search" "not json").1 rfl,
   by decide⟩

/-- C7: a message whose role is not `"assistant"`, that lacks a
`tool_calls` field, or whose `tool_calls` value is not a sequence
contributes no identifiers: removing it leaves extraction unchanged. -/
theorem c7_noncontributing_msgs (R : Rubric) (jl : JLoads)
    (m1 m2 : List PVal) (d : List (String × PVal)) (r : PVal)
    (hrole : dLookup d "role" = some r)
    (hskip : pvalEqStr r "assistant" = false ∨
      dLookup d "tool_calls" = Option.none ∨
      (∃ tv, dLookup d "tool_calls" = some tv ∧ isSeq tv = false)) :
    extractRetrievedDocs R jl (.list (m1 ++ .dict d :: m2)) =
      extractRetrievedDocs R jl (.list (m1 ++ m2)) := by
  have hmsg : processMsg R jl (.dict d) = .ok [] := by
    simp only [processMsg]
    rw [hrole]
    rcases hskip with h | h | ⟨tv, htv, hns⟩
    · simp [h]
    · simp [dContains, h]
    · cases hpe : pvalEqStr r "assistant" with
      | false => simp [hpe]
      | true =>
          simp only [hpe, dContains, htv, Option.isSome, Bool.and_true,
            Bool.true_and]
          cases tv <;> simp [isSeq] at hns ⊢
  show processMsgs R jl _ = processMsgs R jl _
  exact processMsgs_drop R jl m1 m2 (.dict d) hmsg

/-- Witness for C7: a user message alongside an assistant tool call
changes nothing. -/
theorem c7_noncontributing_msgs_witness :
    dLookup [("role", PVal.str "user")] "role" = some (PVal.str "user") ∧
    pvalEqStr (PVal.str "user") "assistant" = false ∧
    extractRetrievedDocs demoRubric jlDemo
      (.list [mkAsstMsg [mkCall "search" "\x7b\"section_id\": \"a:1\"\x7d"],
        .dict [("role", PVal.str "user")]]) =
      extractRetrievedDocs demoRubric jlDemo
        (.list [mkAsstMsg [mkCall "search" "\x7b\"section_id\": \"a:1\"\x7d"]]) :=
  ⟨rfl, rfl,
   c7_noncontributing_msgs demoRubric jlDemo
     [mkAsstMsg [mkCall "search" "\x7b\"section_id\": \"a:1\"\x7d"]] []
     [("role", PVal.str "user")] (PVal.str "user") rfl (Or.inl rfl)⟩

/-- C2: target resolution checks the recognised locations (under
`"input"`, top level, under `"info"`) in that fixed precedence order and
returns the value at the first location where the target key is present
with a non-empty value (an earlier location holding the key with an
empty/falsy value falls through); when no location yields a non-empty
value the resolved result is the empty list. -/
theorem c2_target_precedence (R : Rubric) (s : State) :
    (∀ v, specResolve R s = some v → locateRaw R s = v) ∧
    (specResolve R s = Option.none → getTargetDocs R s = .ok ([], false)) := by
  have h := locateRaw_spec R s
  constructor
  · intro v hv
    rw [hv] at h
    simp only at h
    exact h.1
  · intro hv
    rw [hv] at h
    simp only at h
    unfold getTargetDocs
    rw [coerceList_falsy _ h]
    simp [parseAll]

/-- Witness for C2: the top-level location wins when `"input"` is absent,
and a state with the key nowhere resolves to the empty list. -/
theorem c2_target_precedence_witness :
    locateRaw demoRubric [("target_documents", PVal.list [PVal.str "t"])] =
      PVal.list [PVal.str "t"] ∧
    getTargetDocs demoRubric [("other", PVal.num 1)] = .ok ([], false) :=
  ⟨(c2_target_precedence demoRubric _).1 _ rfl,
   (c2_target_precedence demoRubric _).2 rfl⟩

/-- C3: a completion that is not a sequence makes the extraction helper
fail at once on the `isinstance` assertion, and `retrieved_count`,
`recall` and `precision` all propagate that same fatal error to the
caller. -/
theorem c3_nonlist_fatal (R : Rubric) (jl : JLoads) (c : PVal) (s : State)
    (h : isSeq c = false) :
    extractRetrievedDocs R jl c = .error .assertionError ∧
    retrievedCount R jl c = .error .assertionError ∧
    recallMetric R jl c s = .error .assertionError ∧
    precision R jl c s = .error .assertionError := by
  cases c <;> first
    | exact ⟨rfl, rfl, rfl, rfl⟩
    | simp [isSeq] at h

/-- Witness for C3 at a string completion. -/
theorem c3_nonlist_fatal_witness :
    isSeq (PVal.str "oops") = false ∧
    extractRetrievedDocs demoRubric jlDemo (PVal.str "oops") = .error .assertionError ∧
    retrievedCount demoRubric jlDemo (PVal.str "oops") = .error .assertionError ∧
    recallMetric demoRubric jlDemo (PVal.str "oops") [] = .error .assertionError ∧
    precision demoRubric jlDemo (PVal.str "oops") [] = .error .assertionError :=
  ⟨rfl, c3_nonlist_fatal demoRubric jlDemo (PVal.str "oops") [] rfl⟩

/-- C4: when extraction and target resolution succeed, recall is `1.0` as
soon as the deduplicated target set is empty, and otherwise equals
`|retrieved ∩ target| / |target|` over the deduplicated sets. -/
theorem c4_recall_formula (R : Rubric) (jl : JLoads) (c : PVal) (s : State)
    (retrieved target : List String) (w : Bool)
    (hr : extractRetrievedDocs R jl c = .ok retrieved)
    (ht : getTargetDocs R s = .ok (target, w)) :
    (target.toFinset = ∅ → recallMetric R jl c s = .ok 1) ∧
    (target.toFinset ≠ ∅ →
      recallMetric R jl c s =
        .ok (((retrieved.toFinset ∩ target.toFinset).card : ℚ) /
          (target.toFinset.card : ℚ))) := by
  unfold recallMetric
  rw [hr, ht]
  constructor
  · intro he; simp [he]
  · intro he; simp [he]

/-- Witness for C4: no targets anywhere gives recall exactly 1. -/
theorem c4_recall_formula_witness :
    extractRetrievedDocs demoRubric jlDemo (PVal.list []) = .ok [] ∧
    getTargetDocs demoRubric [] = .ok ([], false) ∧
    recallMetric demoRubric jlDemo (PVal.list []) [] = .ok 1 :=
  ⟨rfl, rfl,
   (c4_recall_formula demoRubric jlDemo (PVal.list []) [] [] [] false rfl rfl).1
     (by decide)⟩

/-- C5: when extraction and target resolution succeed, precision is `0.0`
as soon as the deduplicated retrieved set is empty (whatever the target
set holds, also when it is empty too), and otherwise equals
`|retrieved ∩ target| / |retrieved|` over the deduplicated sets. -/
theorem c5_precision_formula (R : Rubric) (jl : JLoads) (c : PVal) (s : State)
    (retrieved target : List String) (w : Bool)
    (hr : extractRetrievedDocs R jl c = .ok retrieved)
    (ht : getTargetDocs R s = .ok (target, w)) :
    (retrieved.toFinset = ∅ → precision R jl c s = .ok 0) ∧
    (retrieved.toFinset ≠ ∅ →
      precision R jl c s =
        .ok (((retrieved.toFinset ∩ target.toFinset).card : ℚ) /
          (retrieved.toFinset.card : ℚ))) := by
  unfold precision
  rw [hr, ht]
  constructor
  · intro he; simp [he]
  · intro he; simp [he]

/-- Witness for C5: no retrievals and no targets still give precision 0. -/
theorem c5_precision_formula_witness :
    extractRetrievedDocs demoRubric jlDemo (PVal.list []) = .ok [] ∧
    getTargetDocs demoRubric [] = .ok ([], false) ∧
    precision demoRubric jlDemo (PVal.list []) [] = .ok 0 :=
  ⟨rfl, rfl,
   (c5_precision_formula demoRubric jlDemo (PVal.list []) [] [] [] false rfl rfl).1
     (by decide)⟩

/-- C6: every value recall or precision returns lies in `[0, 1]`. -/
theorem c6_metric_bounds (R : Rubric) (jl : JLoads) (c : PVal) (s : State) (q : ℚ) :
    (recallMetric R jl c s = .ok q → 0 ≤ q ∧ q ≤ 1) ∧
    (precision R jl c s = .ok q → 0 ≤ q ∧ q ≤ 1) := by
  constructor
  · intro h
    unfold recallMetric at h
    cases h1 : extractRetrievedDocs R jl c with
    | error e => rw [h1] at h; simp at h
    | ok retrieved =>
        rw [h1] at h
        cases h2 : getTargetDocs R s with
        | error e => rw [h2] at h; simp at h
        | ok tgt =>
            rw [h2] at h
            simp only at h
            by_cases he : tgt.1.toFinset = ∅
            · rw [if_pos he] at h
              cases h
              norm_num
            · rw [if_neg he] at h
              cases h
              have hb : 0 < (tgt.1.toFinset.card : ℚ) := by
                exact_mod_cast Finset.card_pos.mpr (Finset.nonempty_iff_ne_empty.mpr he)
              constructor
              · exact div_nonneg (by positivity) (le_of_lt hb)
              · rw [div_le_one hb]
                exact_mod_cast Finset.card_le_card
                  (@Finset.inter_subset_right String _ retrieved.toFinset tgt.1.toFinset)
  · intro h
    unfold precision at h
    cases h1 : extractRetrievedDocs R jl c with
    | error e => rw [h1] at h; simp at h
    | ok retrieved =>
        rw [h1] at h
        cases h2 : getTargetDocs R s with
        | error e => rw [h2] at h; simp at h
        | ok tgt =>
            rw [h2] at h
            simp only at h
            by_cases he : retrieved.toFinset = ∅
            · rw [if_pos he] at h
              cases h
              norm_num
            · rw [if_neg he] at h
              cases h
              have hb : 0 < (retrieved.toFinset.card : ℚ) := by
                exact_mod_cast Finset.card_pos.mpr (Finset.nonempty_iff_ne_empty.mpr he)
              constructor
              · exact div_nonneg (by positivity) (le_of_lt hb)
              · rw [div_le_one hb]
                exact_mod_cast Finset.card_le_card
                  (@Finset.inter_subset_left String _ retrieved.toFinset tgt.1.toFinset)

/-- Witness for C6 at the empty transcript and empty state. -/
theorem c6_metric_bounds_witness :
    (recallMetric demoRubric jlDemo (PVal.list []) [] = .ok 1 →
      (0 : ℚ) ≤ 1 ∧ (1 : ℚ) ≤ 1) ∧
    (0 : ℚ) ≤ 1 ∧ (1 : ℚ) ≤ 1 :=
  ⟨(c6_metric_bounds demoRubric jlDemo (PVal.list []) [] 1).1,
   (c6_metric_bounds demoRubric jlDemo (PVal.list []) [] 1).1 rfl⟩

/-- C8 as stated is false: a located target value that is not a list and
is truthy but not a string (here the integer `5`) is coerced to a
singleton with a warning, but the subsequent identifier-parser application
raises an uncaught `AttributeError`, so the call does fail. -/
theorem c8_nonstring_target_fails :
    locateRaw demoRubric [("target_documents", PVal.num 5)] = PVal.num 5 ∧
    isSeq (PVal.num 5) = false ∧
    truthy (PVal.num 5) = true ∧
    getTargetDocs demoRubric [("target_documents", PVal.num 5)] =
      .error .attributeError :=
  ⟨rfl, rfl, rfl, rfl⟩

/-- C8 amended: a located non-list value that is truthy is coerced to a
single-element list with the diagnostic warning, and a falsy one is
treated as the empty list with no warning and the call succeeds; the
normalization function is applied to every element of the resulting list,
and the call succeeds whenever those elements are strings — in particular
whenever the located value is itself a string (a truthy non-list,
non-string value instead makes the subsequent parser application raise).
-/
theorem c8_coercion_behaviour (R : Rubric) (s : State) (v : PVal)
    (hloc : locateRaw R s = v) (hnl : isSeq v = false) :
    (truthy v = true → coerceList v = ([v], true)) ∧
    (truthy v = false → getTargetDocs R s = .ok ([], false)) ∧
    (∀ x, v = .str x → truthy v = true →
      getTargetDocs R s = .ok ([R.parser x], true)) := by
  refine ⟨?_, ?_, ?_⟩
  · intro ht
    cases v <;> simp [isSeq] at hnl <;> simp [coerceList, ht]
  · intro ht
    unfold getTargetDocs
    rw [hloc, coerceList_falsy v ht]
    simp [parseAll]
  · rintro x rfl ht
    unfold getTargetDocs
    rw [hloc]
    simp [coerceList, ht, parseAll, parseApply]

/-- Witness for the amended C8: a string target is wrapped, warned about,
parsed and returned; an empty-string target resolves to the empty list
with no warning. -/
theorem c8_coercion_behaviour_witness :
    locateRaw demoRubric [("target_documents", PVal.str "doc7:para2")] =
      PVal.str "doc7:para2" ∧
    getTargetDocs demoRubric [("target_documents", PVal.str "doc7:para2")] =
      .ok (["doc7"], true) ∧
    getTargetDocs demoRubric [("target_documents", PVal.str "")] =
      .ok ([], false) :=
  ⟨rfl,
   (c8_coercion_behaviour demoRubric
      [("target_documents", PVal.str "doc7:para2")] (PVal.str "doc7:para2")
      rfl rfl).2.2 "doc7:para2" rfl (by decide),
   (c8_coercion_behaviour demoRubric
      [("target_documents", PVal.str "")] (PVal.str "")
      rfl rfl).2.1 (by decide)⟩

/-- C9: `retrieved_count` and `target_count` are the sizes of the
deduplicated identifier sets, and repeating one tool call `n ≥ 1` times
leaves `retrieved_count`, recall and precision unchanged compared to a
single occurrence. -/
theorem c9_dedup_counts :
    (∀ (R : Rubric) (jl : JLoads) (c : PVal) (l : List String),
        extractRetrievedDocs R jl c = .ok l →
        retrievedCount R jl c = .ok ((l.dedup.length : ℚ))) ∧
    (∀ (R : Rubric) (s : State) (tl : List String) (w : Bool),
        getTargetDocs R s = .ok (tl, w) →
        targetCount R s = .ok ((tl.dedup.length : ℚ))) ∧
    (∀ (R : Rubric) (jl : JLoads) (m1 m2 pre post : List PVal) (tc : PVal)
        (n : ℕ) (s : State), 1 ≤ n →
        retrievedCount R jl
            (.list (m1 ++ mkAsstMsg (pre ++ (List.replicate n tc ++ post)) :: m2)) =
          retrievedCount R jl
            (.list (m1 ++ mkAsstMsg (pre ++ (tc :: post)) :: m2)) ∧
        recallMetric R jl
            (.list (m1 ++ mkAsstMsg (pre ++ (List.replicate n tc ++ post)) :: m2)) s =
          recallMetric R jl
            (.list (m1 ++ mkAsstMsg (pre ++ (tc :: post)) :: m2)) s ∧
        precision R jl
            (.list (m1 ++ mkAsstMsg (pre ++ (List.replicate n tc ++ post)) :: m2)) s =
          precision R jl
            (.list (m1 ++ mkAsstMsg (pre ++ (tc :: post)) :: m2)) s) := by
  refine ⟨?_, ?_, ?_⟩
  · intro R jl c l h
    unfold retrievedCount
    rw [h]
    rfl
  · intro R s tl w h
    unfold targetCount
    rw [h]
    rfl
  · intro R jl m1 m2 pre post tc n s hn
    have hsd := extract_replicate_samedocs R jl m1 m2 pre post tc n hn
    exact ⟨samedocs_count hsd, samedocs_recall R jl _ _ s hsd,
      samedocs_precision R jl _ _ s hsd⟩

/-- Witness for C9: the same call made twice counts once. -/
theorem c9_dedup_counts_witness :
    retrievedCount demoRubric jlDemo
        (.list [mkAsstMsg [mkCall "search" "\x7b\"section_id\": \"a:1\"\x7d",
          mkCall "search" "\x7b\"section_id\": \"a:1\"\x7d"]]) =
      retrievedCount demoRubric jlDemo
        (.list [mkAsstMsg [mkCall "search" "\x7b\"section_id\": \"a:1\"\x7d"]]) ∧
    retrievedCount demoRubric jlDemo
        (.list [mkAsstMsg [mkCall "search" "\x7b\"section_id\": \"a:1\"\x7d"]]) =
      .ok 1 :=
  ⟨(c9_dedup_counts.2.2 demoRubric jlDemo [] [] []
      [] (mkCall "search" "\x7b\"section_id\": \"a:1\"\x7d") 2 [] (by omega)).1,
   by
     have h := c9_dedup_counts.1 demoRubric jlDemo
       (.list [mkAsstMsg [mkCall "search" "\x7b\"section_id\": \"a:1\"\x7d"]])
       ["a"] (by decide)
     rw [h]
     decide⟩

/-- The transcript of the spec's Scenario 2: two distinct tool calls to
the target tool with identifiers `a:1` and `b:1`. -/
def scenario2C : PVal :=
  .list [mkAsstMsg [mkCall "search" "\x7b\"section_id\": \"a:1\"\x7d"],
    mkAsstMsg [mkCall "search" "\x7b\"section_id\": \"b:1\"\x7d"]]

/-- The state of the spec's Scenario 2: targets `["a", "c"]` under the
`"input"` location. -/
def scenario2S : State :=
  [("input", .dict [("target_documents", .list [.str "a", .str "c"])])]

/-- C10: the caller-supplied normalization function is applied both to
every matched retrieved argument value and to every element of the
resolved target list; with the default parser, Scenario 2 (calls `a:1`
and `b:1`, targets `["a","c"]`) yields recall `0.5` and precision `0.5`.
-/
theorem c10_shared_normalizer :
    (∀ (R : Rubric) (s : State) (l : List String),
        locateRaw R s = .list (l.map PVal.str) →
        getTargetDocs R s = .ok (l.map R.parser, false)) ∧
    (∀ (R : Rubric) (jl : JLoads) (s : String) (ad : List (String × PVal))
        (x : String), jl s = .ok (.dict ad) →
        dLookup ad R.argName = some (.str x) →
        processCall R jl (mkCall R.toolName s) = .ok [R.parser x]) ∧
    recallMetric demoRubric jlDemo scenario2C scenario2S = .ok (1 / 2) ∧
    precision demoRubric jlDemo scenario2C scenario2S = .ok (1 / 2) := by
  refine ⟨?_, ?_, ?_, ?_⟩
  · intro R s l h
    unfold getTargetDocs
    rw [h]
    simp [coerceList, parseAll_strings]
  · intro R jl s ad x h h2
    exact processCall_hit R jl s ad x h h2
  · have hr : extractRetrievedDocs demoRubric jlDemo scenario2C = .ok ["a", "b"] := by
      decide
    have ht : getTargetDocs demoRubric scenario2S = .ok (["a", "c"], false) := by
      decide
    have h1 : ((["a", "b"] : List String).toFinset ∩
        (["a", "c"] : List String).toFinset).card = 1 := by decide
    have h2 : (["a", "c"] : List String).toFinset.card = 2 := by decide
    unfold recallMetric
    rw [hr, ht]
    show (if (["a", "c"] : List String).toFinset = ∅ then (Except.ok 1 : Except PyErr ℚ)
      else .ok ((((["a", "b"] : List String).toFinset ∩
          (["a", "c"] : List String).toFinset).card : ℚ) /
        ((["a", "c"] : List String).toFinset.card : ℚ))) = .ok (1 / 2)
    rw [if_neg (by decide), h1, h2]
    norm_num
  · have hr : extractRetrievedDocs demoRubric jlDemo scenario2C = .ok ["a", "b"] := by
      decide
    have ht : getTargetDocs demoRubric scenario2S = .ok (["a", "c"], false) := by
      decide
    have h1 : ((["a", "b"] : List String).toFinset ∩
        (["a", "c"] : List String).toFinset).card = 1 := by decide
    have h3 : (["a", "b"] : List String).toFinset.card = 2 := by decide
    unfold precision
    rw [hr, ht]
    show (if (["a", "b"] : List String).toFinset = ∅ then (Except.ok 0 : Except PyErr ℚ)
      else .ok ((((["a", "b"] : List String).toFinset ∩
          (["a", "c"] : List String).toFinset).card : ℚ) /
        ((["a", "b"] : List String).toFinset.card : ℚ))) = .ok (1 / 2)
    rw [if_neg (by decide), h1, h3]
    norm_num

/-- Witness for C10: the parser is applied on the target side and on the
retrieved side. -/
theorem c10_shared_normalizer_witness :
    getTargetDocs demoRubric scenario2S = .ok (["a", "c"], false) ∧
    processCall demoRubric jlDemo
        (mkCall "search" "\x7b\"section_id\": \"a:1\"\x7d") = .ok ["a"] :=
  ⟨c10_shared_normalizer.1 demoRubric scenario2S ["a", "c"] rfl,
   c10_shared_normalizer.2.1 demoRubric jlDemo "\x7b\"section_id\": \"a:1\"\x7d"
     [("section_id", PVal.str "a:1")] "a:1" rfl rfl⟩

end DocRetrieval
